import Mathlib

/-!
Shallow embedding of `pylons/controllers/xmlrpc.py` (the base WSGI
`XMLRPCController`): the XML-RPC value union, the type classifier
`xmlrpc_sig`, method-name resolution (`_find_method_name` /
`_publish_method_name`), signature-based dispatch in `__call__`,
the introspection helpers (`system_listMethods`, `system_methodHelp`,
PEP-257 `trim`), and the response wrapping of `_dispatch_call`.
-/

namespace Pylons

/-- The closed union of decoded XML-RPC argument values, as produced by
`xmlrpclib.loads` (Python 2): `str`, `list`, `bool`, `int`, `float`,
`dict`, `xmlrpclib.DateTime`, `xmlrpclib.Binary`.  A `double` payload is
modelled as mantissa and binary exponent, which covers every finite
float; only the variant matters to the classifier, never the payload. -/
inductive Value where
  | string (s : String)
  | array (items : List Value)
  | boolean (b : Bool)
  | int (i : Int)
  | double (mantissa : Int) (exp2 : Int)
  | struct (fields : List (String × Value))
  | dateTime (iso : String)
  | base64 (bytes : List Nat)

/-- The Python classes appearing in `XMLRPC_MAPPING`. -/
inductive PyType where
  | basestring
  | list
  | bool
  | int
  | float
  | dict
  | dateTime
  | binary
deriving DecidableEq

/-- Python 2 `isinstance(param, type)` restricted to the decoded value
union and the classes of `XMLRPC_MAPPING`.  Crucially, `bool` is a
subclass of `int` in Python, so a boolean value is an instance of both
`bool` and `int`; every other variant is an instance of exactly its own
class. -/
def isinstanceOf (v : Value) (t : PyType) : Bool :=
  match v, t with
  | .string _, .basestring => true
  | .array _, .list => true
  | .boolean _, .bool => true
  | .boolean _, .int => true
  | .int _, .int => true
  | .double _ _, .float => true
  | .struct _, .dict => true
  | .dateTime _, .dateTime => true
  | .base64 _, .binary => true
  | _, _ => false

/-- `XMLRPC_MAPPING`: the ordered rule list pairing a Python class with
its XML-RPC type tag, exactly in source order. -/
def XMLRPC_MAPPING : List (PyType × String) :=
  [(.basestring, "string"), (.list, "array"), (.bool, "boolean"),
   (.int, "int"), (.float, "double"), (.dict, "struct"),
   (.dateTime, "dateTime.iso8601"), (.binary, "base64")]

/-- The inner loop of `xmlrpc_sig`: scan the mapping in order and return
the tag of the first rule whose class the value is an instance of
(`break` on the first hit); `none` when no rule matches. -/
def classifyFirst (v : Value) : List (PyType × String) → Option String
  | [] => none
  | (t, name) :: rest =>
      if isinstanceOf v t then some name else classifyFirst v rest

/-- `xmlrpc_sig(args)`: append, for each parameter in order, the tag of
the first matching rule; a parameter matching no rule contributes
nothing (the source has no `else` on the inner loop). -/
def xmlrpc_sig (args : List Value) : List String :=
  args.filterMap (fun p => classifyFirst p XMLRPC_MAPPING)

/-- The tag the classifier assigns to a single value (defaulting to ""
in the never-reached no-match case). -/
def classifyTag (v : Value) : String :=
  (classifyFirst v XMLRPC_MAPPING).getD ""

theorem classifyFirst_total (v : Value) :
    classifyFirst v XMLRPC_MAPPING = some (classifyTag v) := by
  cases v <;> rfl

theorem xmlrpc_sig_eq_map (args : List Value) :
    xmlrpc_sig args = args.map classifyTag := by
  induction args with
  | nil => rfl
  | cons v rest ih =>
      simp [xmlrpc_sig, List.filterMap_cons, classifyFirst_total v]
      simpa [xmlrpc_sig] using ih

theorem xmlrpc_sig_length (args : List Value) :
    (xmlrpc_sig args).length = args.length := by
  simp [xmlrpc_sig_eq_map]

/-- C3: the type classifier is total and deterministic on the closed
Value union: every value receives exactly one tag from the first
matching rule, equal values receive equal tags, and a boolean is tagged
"boolean", never "int", precisely because the boolean rule precedes the
integer rule (with the integer rule placed first, a boolean would be
tagged "int", since Python booleans are also instances of `int`). -/
theorem c3_classifier_total_deterministic (v : Value) :
    (∃ tag, classifyFirst v XMLRPC_MAPPING = some tag ∧
      ∀ tag2, classifyFirst v XMLRPC_MAPPING = some tag2 → tag2 = tag) ∧
    (∀ w, v = w →
      classifyFirst v XMLRPC_MAPPING = classifyFirst w XMLRPC_MAPPING) ∧
    (∀ b : Bool, classifyFirst (Value.boolean b) XMLRPC_MAPPING
        = some "boolean") ∧
    ("boolean" : String) ≠ "int" ∧
    (∀ b : Bool,
      classifyFirst (Value.boolean b) ((PyType.int, "int") :: XMLRPC_MAPPING)
        = some "int") := by
  refine ⟨⟨classifyTag v, classifyFirst_total v, ?_⟩, ?_, ?_, ?_, ?_⟩
  · intro tag2 h
    rw [classifyFirst_total v] at h
    exact Option.some_inj.mp h.symm
  · intro w h
    rw [h]
  · intro b
    rfl
  · decide
  · intro b
    rfl

/-- C3 witness: the theorem applied to a concrete boolean value. -/
theorem c3_witness :
    classifyFirst (Value.boolean true) XMLRPC_MAPPING
      = classifyFirst (Value.boolean true) XMLRPC_MAPPING ∧
    classifyFirst (Value.boolean true) XMLRPC_MAPPING = some "boolean" :=
  ⟨(c3_classifier_total_deterministic (Value.boolean true)).2.1
      (Value.boolean true) rfl,
   (c3_classifier_total_deterministic (Value.boolean true)).2.2.1 true⟩

/-- Character-level step of `name.replace('.', '_')`. -/
def resolveChar (c : Char) : Char :=
  if c = '.' then '_' else c

/-- Character-level step of `name.replace('_', '.')`. -/
def publishChar (c : Char) : Char :=
  if c = '_' then '.' else c

/-- `_find_method_name(name)`: `name.replace('.', '_')`. -/
def findMethodName (name : String) : String :=
  String.mk (name.data.map resolveChar)

/-- `_publish_method_name(name)`: `name.replace('_', '.')`. -/
def publishMethodName (name : String) : String :=
  String.mk (name.data.map publishChar)

theorem resolve_publish_resolve_char (c : Char) :
    resolveChar (publishChar (resolveChar c)) = resolveChar c := by
  by_cases h1 : c = '.'
  · simp [resolveChar, publishChar, h1]
  · by_cases h2 : c = '_'
    · simp [resolveChar, publishChar, h1, h2]
    · simp [resolveChar, publishChar, h1, h2]

/-- C8: for a name containing neither a dot nor an underscore,
`resolve ∘ publish ∘ resolve` agrees with `resolve`. -/
theorem c8_resolve_publish_roundtrip (n : String)
    (h : ∀ c ∈ n.data, c ≠ '.' ∧ c ≠ '_') :
    findMethodName (publishMethodName (findMethodName n))
      = findMethodName n := by
  simp only [findMethodName, publishMethodName, List.map_map]
  exact congrArg String.mk
    (List.map_congr_left (fun c _ => resolve_publish_resolve_char c))

/-- C8 witness: the round-trip at the concrete name "userstatus". -/
theorem c8_witness :
    findMethodName (publishMethodName (findMethodName "userstatus"))
      = findMethodName "userstatus" :=
  c8_resolve_publish_roundtrip "userstatus" (by decide)

/-- C9: publishing after resolving never changes the published result:
for every string, `publish (resolve n) = publish n`, since both `.` and
`_` collapse to `.` either way. -/
theorem c9_publish_resolve_collapse (n : String) :
    publishMethodName (findMethodName n) = publishMethodName n := by
  simp only [findMethodName, publishMethodName, List.map_map]
  refine congrArg String.mk (List.map_congr_left (fun c _ => ?_))
  by_cases h1 : c = '.'
  · simp [resolveChar, publishChar, h1]
  · by_cases h2 : c = '_'
    · simp [resolveChar, publishChar, h1, h2]
    · simp [resolveChar, publishChar, h1, h2]

/-- The single-quote character used by Python `repr` of strings. -/
def sq : String :=
  String.singleton (Char.ofNat 39)

/-- Python `repr` of a plain string (tags contain no quotes or escapes). -/
def pyStrRepr (s : String) : String :=
  sq ++ s ++ sq

/-- Python `repr`/`str` of a list of strings, as interpolated by `%s`. -/
def pyListRepr (l : List String) : String :=
  "[" ++ String.intercalate ", " (l.map pyStrRepr) ++ "]"

/-- Python `repr`/`str` of a signature list (a list of lists of strings). -/
def pySigRepr (l : List (List String)) : String :=
  "[" ++ String.intercalate ", " (l.map pyListRepr) ++ "]"

/-- The fault message built in `__call__` on a signature mismatch
("Incorrect argument signature. %s recieved does not match %s signature
for method %s" interpolated with params, the signature list and the
original wire method name; the misspelling is the source's). -/
def sigFaultMsg (params : List String) (signature : List (List String))
    (origMethod : String) : String :=
  "Incorrect argument signature. " ++ pyListRepr params
    ++ " recieved does not match " ++ pySigRepr signature
    ++ " signature for method " ++ origMethod

/-- What dispatch reads off a controller method: its parameter names
after `self` (`inspect.getargspec(func)[0][1:]`), its optional
`signature` attribute, its optional `help` attribute and its docstring. -/
structure Handler where
  argNames : List String
  signature : Option (List (List String))
  helpAttr : Option String
  doc : Option String

/-- The loop body test in `__call__`: an alternative `sig` is accepted
for the observed `params` iff `len(sig)-1 == len(rpc_args)` (Python
integer arithmetic, so -1 for an empty alternative) and
`params == sig[1:]`. -/
def sigMatches (params : List String) (nargs : Nat) (sig : List String) :
    Bool :=
  (((sig.length : Int) - 1) == (nargs : Int)) && (params == sig.drop 1)

/-- The `for sig in func.signature` loop with its `break`: the first
accepted alternative, in declaration order, or `none`. -/
def findValidSig (params : List String) (nargs : Nat) :
    List (List String) → Option (List String)
  | [] => none
  | sig :: rest =>
      if sigMatches params nargs sig then some sig
      else findValidSig params nargs rest

/-- Outcome of the dispatch stage of `__call__` after the body has been
decoded: either an XML-RPC fault response, or control passes to the
`WSGIController` with the chosen action name and the keyword arguments
bound by `dict(zip(arglist, rpc_args))` (the `environ` /
`start_response` context entries live outside the value union and are
omitted). -/
inductive DispatchResult where
  | fault (code : Int) (message : String)
  | invoke (action : String) (kargs : List (String × Value))

/-- The dispatch logic of `__call__` from name resolution onward:
resolve the wire name, look the handler up (`hasattr`/`getattr`), check
the declared signature when there is one, then bind positional
arguments to parameter names by `zip`. -/
def dispatch (reg : List (String × Handler)) (origMethod : String)
    (rpcArgs : List Value) : DispatchResult :=
  let method := findMethodName origMethod
  match List.lookup method reg with
  | none => .fault 0 "No method by that name"
  | some func =>
      let proceed : DispatchResult :=
        .invoke method (List.zip func.argNames rpcArgs)
      match func.signature with
      | some sigs =>
          let params := xmlrpc_sig rpcArgs
          match findValidSig params rpcArgs.length sigs with
          | some _ => proceed
          | none => .fault 0 (sigFaultMsg params sigs origMethod)
      | none => proceed

theorem sigMatches_iff (args : List Value) (sig : List String)
    (hne : sig ≠ []) :
    sigMatches (xmlrpc_sig args) args.length sig = true ↔
      sig.drop 1 = xmlrpc_sig args := by
  match sig, hne with
  | s0 :: tl, _ =>
      simp only [sigMatches, Bool.and_eq_true, beq_iff_eq]
      constructor
      · rintro ⟨-, h2⟩
        simp at h2
        exact h2.symm
      · intro h
        refine ⟨?_, by simp [h]⟩
        have : tl.length = args.length := by
          have := congrArg List.length h
          simpa [xmlrpc_sig_length] using this
        simp only [List.length_cons]
        omega

theorem findValidSig_first (params : List String) (nargs : Nat)
    (pre : List (List String)) (s : List String)
    (post : List (List String))
    (hpre : ∀ p ∈ pre, sigMatches params nargs p = false)
    (hs : sigMatches params nargs s = true) :
    findValidSig params nargs (pre ++ s :: post) = some s := by
  induction pre with
  | nil => simp [findValidSig, hs]
  | cons p rest ih =>
      have hp := hpre p (by simp)
      simp only [List.cons_append, findValidSig, hp]
      simp only [Bool.false_eq_true, if_false]
      exact ih (fun q hq => hpre q (by simp [hq]))

theorem zip_take_length {α β : Type} (l1 : List α) (l2 : List β) :
    List.zip l1 (l2.take l1.length) = List.zip l1 l2 := by
  induction l1 generalizing l2 with
  | nil => simp
  | cons a as ih =>
      cases l2 with
      | nil => simp
      | cons b bs => simp [List.zip_cons_cons, ih bs]

/-- C1: with a non-empty declared signature list, an alternative is
accepted iff its parameter-tag count equals the argument count and the
observed tags (classifier output) equal the declared tags positionwise;
the first accepted alternative in declaration order is the one found and
dispatch proceeds; tags never coerce (an int argument never satisfies a
declared double slot); and with no accepted alternative dispatch ends in
a Fault of code 0 whose message names the observed tag list and the
declared alternative set. -/
theorem c1_signature_matching
    (reg : List (String × Handler)) (origMethod : String)
    (args : List Value) (func : Handler) (sigs : List (List String))
    (hlook : List.lookup (findMethodName origMethod) reg = some func)
    (hsig : func.signature = some sigs)
    (hne : sigs ≠ [])
    (halts : ∀ sig ∈ sigs, sig ≠ []) :
    (∀ sig ∈ sigs,
       sigMatches (xmlrpc_sig args) args.length sig = true ↔
         ((sig.drop 1).length = args.length ∧
          sig.drop 1 = args.map classifyTag)) ∧
    (∀ pre s post, sigs = pre ++ s :: post →
       (∀ p ∈ pre, sigMatches (xmlrpc_sig args) args.length p = false) →
       sigMatches (xmlrpc_sig args) args.length s = true →
       findValidSig (xmlrpc_sig args) args.length sigs = some s ∧
       dispatch reg origMethod args = DispatchResult.invoke
         (findMethodName origMethod) (List.zip func.argNames args)) ∧
    (∀ sig ∈ sigs, ∀ (i : Nat) (n : Int),
       (sig.drop 1).get? i = some "double" →
       args.get? i = some (Value.int n) →
       sigMatches (xmlrpc_sig args) args.length sig = false) ∧
    (findValidSig (xmlrpc_sig args) args.length sigs = none →
       ∃ msg, dispatch reg origMethod args = DispatchResult.fault 0 msg ∧
         ∃ a b c, msg = a ++ pyListRepr (xmlrpc_sig args) ++ b
           ++ pySigRepr sigs ++ c) := by
  have hiff : ∀ sig ∈ sigs,
      sigMatches (xmlrpc_sig args) args.length sig = true ↔
        ((sig.drop 1).length = args.length ∧
         sig.drop 1 = args.map classifyTag) := by
    intro sig hmem
    rw [sigMatches_iff args sig (halts sig hmem)]
    constructor
    · intro h
      refine ⟨?_, by rw [h, xmlrpc_sig_eq_map]⟩
      rw [h]
      exact xmlrpc_sig_length args
    · rintro ⟨-, h2⟩
      rw [h2, xmlrpc_sig_eq_map]
  refine ⟨hiff, ?_, ?_, ?_⟩
  · intro pre s post hdecomp hpre hs
    have hfind : findValidSig (xmlrpc_sig args) args.length sigs = some s := by
      rw [hdecomp]
      exact findValidSig_first _ _ pre s post hpre hs
    exact ⟨hfind, by simp [dispatch, hlook, hsig, hfind]⟩
  · intro sig hmem i n hd ha
    rw [Bool.eq_false_iff]
    intro htrue
    have h2 := ((hiff sig hmem).mp htrue).2
    rw [h2] at hd
    rw [List.get?_map, ha] at hd
    have : classifyTag (Value.int n) = "double" := by
      simpa using hd
    simp [classifyTag, classifyFirst, isinstanceOf, XMLRPC_MAPPING] at this
  · intro hnone
    refine ⟨sigFaultMsg (xmlrpc_sig args) sigs origMethod,
      by simp [dispatch, hlook, hsig, hnone],
      "Incorrect argument signature. ", " recieved does not match ",
      " signature for method " ++ origMethod, ?_⟩
    simp [sigFaultMsg, String.append_assoc]

/-- The `userinfo` example handler from the controller docstring. -/
def userinfoHandler : Handler :=
  { argNames := ["username", "age"],
    signature := some [["struct", "string"], ["struct", "string", "int"]],
    helpAttr := none,
    doc := none }

/-- A registry exposing only the `userinfo` handler. -/
def regUserinfo : List (String × Handler) :=
  [("userinfo", userinfoHandler)]

/-- C1 witness: calling `userinfo("bob", 11)` classifies to
["string", "int"], skips the two-element alternative and accepts the
second alternative, so dispatch proceeds to invocation. -/
theorem c1_witness :
    dispatch regUserinfo "userinfo" [Value.string "bob", Value.int 11]
      = DispatchResult.invoke "userinfo"
          [("username", Value.string "bob"), ("age", Value.int 11)] := by
  have h := c1_signature_matching regUserinfo "userinfo"
    [Value.string "bob", Value.int 11] userinfoHandler
    [["struct", "string"], ["struct", "string", "int"]]
    rfl rfl (by decide) (by decide)
  have h2 := (h.2.1 [["struct", "string"]] ["struct", "string", "int"] []
    rfl (by decide) (by decide)).2
  exact h2

/-- C2: a handler with no `signature` attribute skips the signature
check entirely: any argument list proceeds to binding and invocation,
and dispatch never faults. -/
theorem c2_no_signature_skips_check
    (reg : List (String × Handler)) (origMethod : String)
    (args : List Value) (func : Handler)
    (hlook : List.lookup (findMethodName origMethod) reg = some func)
    (hnosig : func.signature = none) :
    dispatch reg origMethod args = DispatchResult.invoke
      (findMethodName origMethod) (List.zip func.argNames args) ∧
    ∀ c m, dispatch reg origMethod args ≠ DispatchResult.fault c m := by
  have hd : dispatch reg origMethod args = DispatchResult.invoke
      (findMethodName origMethod) (List.zip func.argNames args) := by
    simp [dispatch, hlook, hnosig]
  exact ⟨hd, fun c m hc => by rw [hd] at hc; exact DispatchResult.noConfusion hc⟩

/-- A signatureless handler with one declared parameter. -/
def userstatusHandler : Handler :=
  { argNames := ["username"], signature := none,
    helpAttr := none, doc := none }

/-- A registry exposing only the signatureless `userstatus` handler. -/
def regUserstatus : List (String × Handler) :=
  [("userstatus", userstatusHandler)]

/-- C2 witness: with no declared signature, even an argument list of
unexpected arity and types reaches invocation. -/
theorem c2_witness :
    dispatch regUserstatus "userstatus"
        [Value.boolean true, Value.string "x", Value.int 5]
      = DispatchResult.invoke "userstatus"
          [("username", Value.boolean true)] :=
  (c2_no_signature_skips_check regUserstatus "userstatus"
    [Value.boolean true, Value.string "x", Value.int 5]
    userstatusHandler rfl rfl).1

/-- C4: when the resolved internal identifier has no handler in the
registry, dispatch answers with a normal Fault of code 0 and message
"No method by that name", and invocation is never reached. -/
theorem c4_unknown_method_fault
    (reg : List (String × Handler)) (origMethod : String)
    (args : List Value)
    (hlook : List.lookup (findMethodName origMethod) reg = none) :
    dispatch reg origMethod args
      = DispatchResult.fault 0 "No method by that name" ∧
    ∀ a k, dispatch reg origMethod args ≠ DispatchResult.invoke a k := by
  have hd : dispatch reg origMethod args
      = DispatchResult.fault 0 "No method by that name" := by
    simp [dispatch, hlook]
  exact ⟨hd, fun a k hc => by rw [hd] at hc; exact DispatchResult.noConfusion hc⟩

/-- C4 witness: the wire name "does.not.exist" resolves to
`does_not_exist`, which is absent from the registry, so dispatch
faults with code 0. -/
theorem c4_witness :
    dispatch regUserinfo "does.not.exist" []
      = DispatchResult.fault 0 "No method by that name" :=
  (c4_unknown_method_fault regUserinfo "does.not.exist" [] rfl).1

/-- C10: when more positional arguments arrive than the handler declares
parameter names (reachable since a signatureless handler accepts any
arity), the zip silently truncates: the handler is invoked, not faulted,
with exactly the first k arguments bound, k the declared-name count. -/
theorem c10_surplus_args_discarded
    (reg : List (String × Handler)) (origMethod : String)
    (args : List Value) (func : Handler)
    (hlook : List.lookup (findMethodName origMethod) reg = some func)
    (hnosig : func.signature = none)
    (hmore : func.argNames.length < args.length) :
    dispatch reg origMethod args = DispatchResult.invoke
      (findMethodName origMethod) (List.zip func.argNames args) ∧
    List.zip func.argNames args
      = List.zip func.argNames (args.take func.argNames.length) ∧
    (List.zip func.argNames args).length = func.argNames.length := by
  refine ⟨(c2_no_signature_skips_check reg origMethod args func hlook hnosig).1,
    (zip_take_length func.argNames args).symm, ?_⟩
  rw [List.length_zip]
  exact Nat.min_eq_left (Nat.le_of_lt hmore)

/-- C10 witness: three arguments against one declared parameter name
bind only the first argument. -/
theorem c10_witness :
    dispatch regUserstatus "userstatus"
        [Value.string "a", Value.string "b", Value.string "c"]
      = DispatchResult.invoke "userstatus"
          [("username", Value.string "a")] ∧
    (List.zip userstatusHandler.argNames
        [Value.string "a", Value.string "b", Value.string "c"]).length
      = userstatusHandler.argNames.length := by
  have h := c10_surplus_args_discarded regUserstatus "userstatus"
    [Value.string "a", Value.string "b", Value.string "c"]
    userstatusHandler rfl rfl (by decide)
  exact ⟨h.1, h.2.2⟩

/-- What `_inspect_call(self._func)` hands back to `_dispatch_call`:
either an `xmlrpclib.Fault` instance or an ordinary value. -/
inductive RawResponse where
  | fault (code : Int) (message : String)
  | value (v : Value)

/-- The argument handed to `xmlrpclib.dumps` after the wrapping step in
`_dispatch_call`: a Fault instance, or a params tuple. -/
inductive WrappedResponse where
  | faultVal (code : Int) (message : String)
  | params (vals : List Value)

/-- The wrapping step of `_dispatch_call`: anything that is not a Fault
instance is wrapped into a one-element tuple. -/
def wrapResponse (raw : RawResponse) : WrappedResponse :=
  match raw with
  | .fault c m => .faultVal c m
  | .value v => .params [v]

/-- The response envelope produced by
`xmlrpclib.dumps(..., methodresponse=True)`. -/
inductive Envelope where
  | faultEnv (code : Int) (message : String)
  | resultEnv (payload : List Value)

/-- `xmlrpclib.dumps` with `methodresponse=True`: a Fault becomes a
fault envelope, a tuple becomes a (method-response) params envelope. -/
def dumpsEnvelope : WrappedResponse → Envelope
  | .faultVal c m => .faultEnv c m
  | .params vs => .resultEnv vs

/-- `_dispatch_call`: invoke the chosen handler (its raw outcome is the
input here), wrap, and encode. -/
def dispatchCall (raw : RawResponse) : Envelope :=
  dumpsEnvelope (wrapResponse raw)

/-- C6: a handler returning an explicit Fault has that Fault encoded as
a fault envelope, unchanged, and never wrapped into a one-element
successful result; every non-Fault return value is wrapped as a
one-element successful result envelope. -/
theorem c6_fault_passthrough :
    (∀ (c : Int) (m : String),
       dispatchCall (RawResponse.fault c m) = Envelope.faultEnv c m) ∧
    (∀ (c : Int) (m : String) (payload : List Value),
       dispatchCall (RawResponse.fault c m) ≠ Envelope.resultEnv payload) ∧
    (∀ v : Value,
       dispatchCall (RawResponse.value v) = Envelope.resultEnv [v]) := by
  refine ⟨fun c m => rfl, fun c m payload h => ?_, fun v => rfl⟩
  exact Envelope.noConfusion h

/-- C6 witness: a concrete Fault return passes through as a fault
envelope and is not a result envelope; a concrete plain value is
wrapped as a one-element result. -/
theorem c6_witness :
    dispatchCall (RawResponse.fault 3 "boom") = Envelope.faultEnv 3 "boom" ∧
    dispatchCall (RawResponse.fault 3 "boom")
      ≠ Envelope.resultEnv [Value.int 7] ∧
    dispatchCall (RawResponse.value (Value.int 7))
      = Envelope.resultEnv [Value.int 7] :=
  ⟨c6_fault_passthrough.1 3 "boom",
   c6_fault_passthrough.2.1 3 "boom" [Value.int 7],
   c6_fault_passthrough.2.2 (Value.int 7)⟩

/-- Lexicographic comparison of strings as lists of characters, the
order `dir()` sorts attribute names by. -/
def charsLe : List Char → List Char → Bool
  | [], _ => true
  | _ :: _, [] => false
  | a :: as, b :: bs =>
      if a < b then true else if b < a then false else charsLe as bs

/-- String order used by `dir()`. -/
def strLe (a b : String) : Bool :=
  charsLe a.data b.data

/-- Insert a name into a sorted name list. -/
def insertSorted (s : String) : List String → List String
  | [] => [s]
  | t :: ts => if strLe s t then s :: t :: ts else t :: insertSorted s ts

/-- Sort a name list, modelling that `dir()` reports attribute names in
sorted order. -/
def sortNames (l : List String) : List String :=
  l.foldr insertSorted []

/-- The names `dir(self)` yields for the controller's registered
methods (the registry holds exactly the attributes that pass the
`hasattr(meth, 'im_self')` bound-method test). -/
def dirNames (reg : List (String × Handler)) : List String :=
  sortNames (reg.map Prod.fst)

/-- The filter in `system_listMethods`: keep a method name unless it
starts with an underscore (`not method.startswith('_')`; an empty name
starts with nothing and is kept). -/
def listMethodsKeep (m : String) : Bool :=
  match m.data with
  | [] => true
  | c :: _ => !(c = '_')

/-- `system_listMethods`: walk `dir(self)` in order, keep bound methods
whose name does not start with `_`, and append each name through
`_publish_method_name`. -/
def system_listMethods (reg : List (String × Handler)) : List String :=
  go (dirNames reg)
where
  go : List String → List String
  | [] => []
  | m :: rest =>
      if listMethodsKeep m then publishMethodName m :: go rest
      else go rest

theorem system_listMethods_go_eq (l : List String) :
    system_listMethods.go l
      = (l.filter listMethodsKeep).map publishMethodName := by
  induction l with
  | nil => rfl
  | cons m rest ih =>
      by_cases h : listMethodsKeep m = true
      · simp [system_listMethods.go, List.filter_cons, h, ih]
      · rw [Bool.not_eq_true] at h
        simp [system_listMethods.go, List.filter_cons, h, ih]

theorem mem_insertSorted (s x : String) (l : List String) :
    x ∈ insertSorted s l ↔ x = s ∨ x ∈ l := by
  induction l with
  | nil => simp [insertSorted]
  | cons t ts ih =>
      by_cases h : strLe s t = true
      · simp [insertSorted, h]
      · rw [Bool.not_eq_true] at h
        simp [insertSorted, h, ih]
        tauto

theorem mem_sortNames (x : String) (l : List String) :
    x ∈ sortNames l ↔ x ∈ l := by
  induction l with
  | nil => simp [sortNames]
  | cons a as ih =>
      simp only [sortNames, List.foldr_cons] at *
      rw [mem_insertSorted, ih, List.mem_cons]

/-- A `blog_view` handler for the introspection example. -/
def blogViewHandler : Handler :=
  { argNames := [], signature := none, helpAttr := none,
    doc := some "View a blog" }

/-- A `system_methodHelp` handler entry (the built-in introspection
method is itself a bound method on the controller, so it appears in
`dir(self)` like any other handler). -/
def systemMethodHelpHandler : Handler :=
  { argNames := ["name"], signature := some [["string", "string"]],
    helpAttr := none, doc := some "Returns the documentation for a method" }

/-- The registry from the spec's `listMethods` scenario: internal ids
`blog_view` and `system_methodHelp`. -/
def regC5 : List (String × Handler) :=
  [("blog_view", blogViewHandler),
   ("system_methodHelp", systemMethodHelpHandler)]

/-- C5 counterexample: on a registry containing `blog_view` and
`system_methodHelp`, `system_listMethods` returns
["blog.view", "system.methodHelp"], not ["blog.view"]: the only
exclusion rule is a leading underscore on the internal name, and
`system_methodHelp` has none, so it is published, contradicting the
claim's asserted result. -/
theorem c5_counterexample :
    system_listMethods regC5 = ["blog.view", "system.methodHelp"] ∧
    system_listMethods regC5 ≠ ["blog.view"] := by
  constructor
  · rfl
  · decide

/-- C5 (amended): `system_listMethods` enumerates the registry's
entries in sorted order, keeps exactly those whose internal name does
not start with the underscore marker (the reserved-name rule tests the
internal id, not the published name), publishes each kept name through
`_` to `.` replacement, and is stable across repeated calls on an
unchanged registry; on the registry containing `blog_view` and
`system_methodHelp` it returns both published names. -/
theorem c5_amended (reg : List (String × Handler)) :
    (system_listMethods reg
       = ((dirNames reg).filter listMethodsKeep).map publishMethodName) ∧
    (∀ m, m ∈ reg.map Prod.fst → listMethodsKeep m = true →
       publishMethodName m ∈ system_listMethods reg) ∧
    (∀ pub, pub ∈ system_listMethods reg →
       ∃ m, m ∈ reg.map Prod.fst ∧ listMethodsKeep m = true ∧
         pub = publishMethodName m) ∧
    (∀ reg2, reg2 = reg →
       system_listMethods reg2 = system_listMethods reg) := by
  have hchar : system_listMethods reg
      = ((dirNames reg).filter listMethodsKeep).map publishMethodName :=
    system_listMethods_go_eq (dirNames reg)
  refine ⟨hchar, ?_, ?_, fun reg2 h => by rw [h]⟩
  · intro m hmem hkeep
    rw [hchar]
    refine List.mem_map.mpr ⟨m, ?_, rfl⟩
    rw [List.mem_filter]
    exact ⟨(mem_sortNames m (reg.map Prod.fst)).mpr hmem, hkeep⟩
  · intro pub hpub
    rw [hchar] at hpub
    obtain ⟨m, hm, rfl⟩ := List.mem_map.mp hpub
    rw [List.mem_filter] at hm
    exact ⟨m, (mem_sortNames m (reg.map Prod.fst)).mp hm.1, hm.2, rfl⟩

/-- C5 witness: the amended theorem applied to the scenario registry:
both `blog.view` and `system.methodHelp` are in the published list. -/
theorem c5_witness :
    ("blog.view" : String) ∈ system_listMethods regC5 ∧
    ("system.methodHelp" : String) ∈ system_listMethods regC5 := by
  have h := c5_amended regC5
  have h1 := h.2.1 "blog_view" (by decide) (by decide)
  have h2 := h.2.1 "system_methodHelp" (by decide) (by decide)
  exact ⟨h1, h2⟩

/-- Python 2 whitespace (`string.whitespace`), as stripped by
`str.strip` / `lstrip` / `rstrip`. -/
def isPyWs (c : Char) : Bool :=
  c = ' ' || c = '\t' || c = '\n' || c = Char.ofNat 11 ||
    c = Char.ofNat 12 || c = '\r'

/-- `str.expandtabs()` with the default tab size of 8: each tab becomes
the number of spaces reaching the next multiple of 8, the column resets
on line breaks. -/
def expandtabsChars : List Char → Nat → List Char
  | [], _ => []
  | c :: cs, col =>
      if c = '\t' then
        List.replicate (8 - col % 8) ' ' ++
          expandtabsChars cs (col + (8 - col % 8))
      else if c = '\n' || c = '\r' then c :: expandtabsChars cs 0
      else c :: expandtabsChars cs (col + 1)

/-- Python 2 `str.splitlines()`: split on `\n`, `\r` and `\r\n`, with
no empty trailing chunk for a terminal line break. -/
def splitlinesChars : List Char → List (List Char) :=
  go []
where
  go (acc : List Char) : List Char → List (List Char)
  | [] => if acc.isEmpty then [] else [acc.reverse]
  | '\r' :: '\n' :: rest => acc.reverse :: go [] rest
  | '\n' :: rest => acc.reverse :: go [] rest
  | '\r' :: rest => acc.reverse :: go [] rest
  | c :: rest => go (c :: acc) rest

/-- `str.lstrip()`. -/
def lstripChars (l : List Char) : List Char :=
  l.dropWhile isPyWs

/-- `str.rstrip()`. -/
def rstripChars (l : List Char) : List Char :=
  (l.reverse.dropWhile isPyWs).reverse

/-- `str.strip()`. -/
def stripChars (l : List Char) : List Char :=
  rstripChars (lstripChars l)

/-- The indentation scan of `trim`: the minimum, over the non-blank
lines after the first, of the leading-whitespace width; `none` models
the untouched `sys.maxint` sentinel. -/
def computeIndent (rest : List (List Char)) : Option Nat :=
  rest.foldl
    (fun ind line =>
      let stripped := lstripChars line
      if stripped.isEmpty then ind
      else
        match ind with
        | none => some (line.length - stripped.length)
        | some i => some (min i (line.length - stripped.length)))
    none

/-- The `while trimmed and not trimmed[-1]: trimmed.pop()` loop. -/
def popTrailingBlank (l : List (List Char)) : List (List Char) :=
  (l.reverse.dropWhile List.isEmpty).reverse

/-- The `while trimmed and not trimmed[0]: trimmed.pop(0)` loop. -/
def popLeadingBlank (l : List (List Char)) : List (List Char) :=
  l.dropWhile List.isEmpty

/-- The line list `trim` builds before joining: the stripped first
line, then — only when some later line is non-blank — every later line
with the common indentation sliced off and its right edge stripped;
finally trailing and then leading blank lines are popped. -/
def trimLines (docstring : String) : List (List Char) :=
  if docstring.data.isEmpty then []
  else
    let lines := splitlinesChars (expandtabsChars docstring.data 0)
    let firstLine := stripChars (lines.headD [])
    let restLines :=
      match computeIndent lines.tail with
      | some ind => lines.tail.map (fun line => rstripChars (line.drop ind))
      | none => []
    popLeadingBlank (popTrailingBlank (firstLine :: restLines))

/-- `trim(docstring)` from the source (PEP 257): empty input gives '',
otherwise the processed lines joined by a newline. -/
def trim (docstring : String) : String :=
  if docstring.data.isEmpty then ""
  else String.intercalate "\n" ((trimLines docstring).map String.mk)

/-- Python `getattr(method, 'help', None) or method.__doc__`: the
`help` attribute wins unless it is falsy (absent or empty). -/
def pyOrHelp (helpAttr doc : Option String) : Option String :=
  match helpAttr with
  | some s => if s.data.isEmpty then doc else some s
  | none => doc

/-- `trim` applied to a possibly-absent docstring (`if not docstring`
covers `None` as well as ''). -/
def trimOpt : Option String → String
  | none => ""
  | some s => trim s

/-- Result of `system_methodHelp`: a documentation string or an
`xmlrpclib.Fault`. -/
inductive HelpResult where
  | text (s : String)
  | fault (code : Int) (message : String)

/-- `system_methodHelp(name)`: resolve the wire name, and if the
handler exists return its trimmed help text, appending
"\n\nMethod signature: %s" when the `signature` attribute is truthy;
otherwise `Fault(0, "No such method name")`. -/
def system_methodHelp (reg : List (String × Handler)) (name : String) :
    HelpResult :=
  match List.lookup (findMethodName name) reg with
  | some method =>
      let helpText := trimOpt (pyOrHelp method.helpAttr method.doc)
      match method.signature with
      | some sig =>
          if sig.isEmpty then .text helpText
          else .text (helpText ++ "\n\nMethod signature: " ++ pySigRepr sig)
      | none => .text helpText
  | none => .fault 0 "No such method name"

theorem dropWhile_head_false {α : Type} (p : α → Bool) (l : List α)
    (x : α) (xs : List α) (h : l.dropWhile p = x :: xs) : p x = false := by
  induction l with
  | nil => simp [List.dropWhile] at h
  | cons a as ih =>
      rw [List.dropWhile_cons] at h
      by_cases hp : p a = true
      · rw [if_pos hp] at h
        exact ih h
      · rw [Bool.not_eq_true] at hp
        rw [if_neg (by simp [hp])] at h
        cases h
        exact hp

theorem getLastD_irrel {α : Type} (l : List α) (hne : l ≠ []) (a b : α) :
    l.getLastD a = l.getLastD b := by
  rw [List.getLastD_eq_getLast?, List.getLastD_eq_getLast?]
  obtain ⟨z, hz⟩ := Option.isSome_iff_exists.mp (List.getLast?_isSome.mpr hne)
  rw [hz]
  rfl

theorem getLastD_dropWhile {α : Type} (p : α → Bool) (l : List α) (d : α)
    (h : l.dropWhile p ≠ []) :
    (l.dropWhile p).getLastD d = l.getLastD d := by
  induction l with
  | nil => exact absurd rfl h
  | cons a as ih =>
      rw [List.dropWhile_cons] at h ⊢
      by_cases hp : p a = true
      · rw [if_pos hp] at h ⊢
        have hasne : as ≠ [] := by
          intro hnil
          rw [hnil] at h
          exact h rfl
        rw [ih h, List.getLastD_cons]
        exact getLastD_irrel as hasne d a
      · rw [if_neg hp] at h ⊢

theorem isEmpty_false_ne_nil {α : Type} (l : List α)
    (h : l.isEmpty = false) : l ≠ [] := by
  cases l with
  | nil => simp at h
  | cons a as => exact List.cons_ne_nil a as

theorem popBlank_ends (t : List (List Char))
    (h : popLeadingBlank (popTrailingBlank t) ≠ []) :
    (popLeadingBlank (popTrailingBlank t)).headD [' '] ≠ [] ∧
    (popLeadingBlank (popTrailingBlank t)).getLastD [' '] ≠ [] := by
  obtain ⟨x, xs, hr⟩ :
      ∃ x xs, popLeadingBlank (popTrailingBlank t) = x :: xs := by
    cases hc : popLeadingBlank (popTrailingBlank t) with
    | nil => exact absurd hc h
    | cons x xs => exact ⟨x, xs, rfl⟩
  simp only [popLeadingBlank] at h hr ⊢
  constructor
  · rw [hr]
    exact isEmpty_false_ne_nil x
      (dropWhile_head_false List.isEmpty (popTrailingBlank t) x xs hr)
  · rw [getLastD_dropWhile List.isEmpty (popTrailingBlank t) [' '] h]
    have hpt : popTrailingBlank t ≠ [] := by
      intro hnil
      rw [hnil] at h
      exact h rfl
    have hq : t.reverse.dropWhile List.isEmpty ≠ [] := by
      intro hnil
      simp only [popTrailingBlank, hnil, List.reverse_nil] at hpt
      exact hpt rfl
    obtain ⟨y, ys, hqe⟩ :
        ∃ y ys, t.reverse.dropWhile List.isEmpty = y :: ys := by
      cases hc : t.reverse.dropWhile List.isEmpty with
      | nil => exact absurd hc hq
      | cons y ys => exact ⟨y, ys, rfl⟩
    simp only [popTrailingBlank]
    rw [List.getLastD_eq_getLast?, List.getLast?_reverse, hqe]
    exact isEmpty_false_ne_nil y
      (dropWhile_head_false List.isEmpty t.reverse y ys hqe)

theorem trimLines_no_blank_ends (d : String) (h : trimLines d ≠ []) :
    (trimLines d).headD [' '] ≠ [] ∧ (trimLines d).getLastD [' '] ≠ [] := by
  by_cases hd : d.data.isEmpty = true
  · rw [trimLines, if_pos hd] at h
    exact absurd rfl h
  · rw [Bool.not_eq_true] at hd
    rw [trimLines, if_neg (by simp [hd])] at h ⊢
    exact popBlank_ends _ h

/-- C7: for a wire name resolving to an existing handler,
`system_methodHelp` answers with the help text put through the
source's `trim` (tabs expanded, the common indentation of the lines
after the first removed, leading and trailing blank lines popped — the
returned line list never starts or ends with a blank line), with the
declared signature set appended as a suffix exactly when the handler
declares a non-empty signature list; for a name whose resolved handler
does not exist it answers with a Fault. -/
theorem c7_method_help (reg : List (String × Handler)) (name : String) :
    (∀ method, List.lookup (findMethodName name) reg = some method →
       ((method.signature = none →
           system_methodHelp reg name = HelpResult.text
             (trimOpt (pyOrHelp method.helpAttr method.doc))) ∧
        (method.signature = some [] →
           system_methodHelp reg name = HelpResult.text
             (trimOpt (pyOrHelp method.helpAttr method.doc))) ∧
        (∀ sig, method.signature = some sig → sig ≠ [] →
           system_methodHelp reg name = HelpResult.text
             (trimOpt (pyOrHelp method.helpAttr method.doc)
               ++ "\n\nMethod signature: " ++ pySigRepr sig)))) ∧
    (List.lookup (findMethodName name) reg = none →
       system_methodHelp reg name
         = HelpResult.fault 0 "No such method name") ∧
    (∀ d : String, trimLines d ≠ [] →
       (trimLines d).headD [' '] ≠ [] ∧ (trimLines d).getLastD [' '] ≠ []) ∧
    trim "Docs line one\n\n\tIndented detail\n\n"
      = "Docs line one\n\nIndented detail" := by
  refine ⟨?_, ?_, trimLines_no_blank_ends, by decide⟩
  · intro method hm
    refine ⟨?_, ?_, ?_⟩
    · intro hsig
      simp [system_methodHelp, hm, hsig]
    · intro hsig
      simp [system_methodHelp, hm, hsig]
    · intro sig hsig hne
      cases sig with
      | nil => exact absurd rfl hne
      | cons s ss => simp [system_methodHelp, hm, hsig]
  · intro hm
    simp [system_methodHelp, hm]

/-- C7 witness: on the scenario registry, help for `blog.view` is its
trimmed docstring, help for `system.methodHelp` carries the signature
suffix, and an unknown name yields the Fault. -/
theorem c7_witness :
    system_methodHelp regC5 "blog.view" = HelpResult.text "View a blog" ∧
    system_methodHelp regC5 "system.methodHelp" = HelpResult.text
      ("Returns the documentation for a method"
        ++ "\n\nMethod signature: " ++ pySigRepr [["string", "string"]]) ∧
    system_methodHelp regC5 "no.such.method"
      = HelpResult.fault 0 "No such method name" := by
  refine ⟨?_, ?_, ?_⟩
  · have h := ((c7_method_help regC5 "blog.view").1 blogViewHandler rfl).1 rfl
    have e : trimOpt (pyOrHelp blogViewHandler.helpAttr blogViewHandler.doc)
        = "View a blog" := by decide
    rw [e] at h
    exact h
  · have h := ((c7_method_help regC5 "system.methodHelp").1
      systemMethodHelpHandler rfl).2.2 [["string", "string"]] rfl
      (by decide)
    have e : trimOpt (pyOrHelp systemMethodHelpHandler.helpAttr
        systemMethodHelpHandler.doc)
        = "Returns the documentation for a method" := by decide
    rw [e] at h
    exact h
  · exact (c7_method_help regC5 "no.such.method").2.1 rfl

end Pylons
